import Mathlib

/-!
Shallow embedding of the insomniad-rs daemon (src/main.rs, src/time.rs,
src/wakeup_sources.rs) and verification of its specification claims.

Modelling conventions:
* Machine integers (`u64`) are `Nat`; every arithmetic step that could
  overflow or underflow in Rust is guarded exactly where the source guards it.
* File I/O is made explicit: the content a `read_to_string` returns is an
  input of the embedded function, and the kernel's response to a `write_all`
  is a `WriteResult` input.  Effects the source performs (opening a file,
  writing bytes, dropping a handle) are recorded in explicit outcome fields.
* `panic!` / `expect` / failed `assert!` (fatal, process-terminating errors)
  are `Except.error`; normal returns are `Except.ok`.
-/

namespace Insomniad

/-- Linux errno values used by the source via `libc`. -/
def EINVAL : Nat := 22

/-- Linux errno for "device or resource busy". -/
def EBUSY : Nat := 16

/-- Linux errno for "bad file descriptor": per POSIX, `write(2)` on a file
descriptor that was opened read-only fails with `EBADF`. -/
def EBADF : Nat := 9

/-- Result the kernel returns for a `write_all` call: accepted, or failed
with some errno (`raw_os_error`). -/
inductive WriteResult where
  | ok : WriteResult
  | err : Nat → WriteResult
deriving DecidableEq

/-- True when an embedded computation ended in a fatal error
(`panic!` / `expect` / failed assertion in the source). -/
def isFatal {α : Type} : Except String α → Bool
  | Except.error _ => true
  | Except.ok _ => false

/-! ### String helpers

The Rust source uses `str::split('\t')`, `str::split_whitespace`,
`str::trim_right` and `u64::from_str`.  They are embedded here as structurally
recursive functions over the character list of a `String`, so that every
definition evaluates by kernel reduction. -/

/-- Worker for `splitBy`: `acc` holds the (reversed) characters of the piece
currently being accumulated. -/
def splitByAux (p : Char → Bool) : List Char → List Char → List (List Char)
  | acc, [] => [acc.reverse]
  | acc, c :: cs =>
    if p c then acc.reverse :: splitByAux p [] cs
    else splitByAux p (c :: acc) cs

/-- Split a character list at every character satisfying `p`, keeping empty
pieces — the behaviour of Rust `str::split` with a `char` pattern. -/
def splitBy (p : Char → Bool) (cs : List Char) : List (List Char) :=
  splitByAux p [] cs

/-- Embeds Rust `line.split('\t').filter(|field| field.len() > 0)`:
tab-separated fields of a line with the empty fields discarded. -/
def nonEmptyFields (line : String) : List String :=
  ((splitBy (fun c => c == '\t') line.data).filter (fun f => f.length > 0)).map
    (fun f => String.mk f)

/-- Embeds Rust `str::split_whitespace`: whitespace-separated words, empty
pieces discarded. -/
def splitWhitespaceStr (s : String) : List String :=
  ((splitBy Char.isWhitespace s.data).filter (fun f => f.length > 0)).map
    (fun f => String.mk f)

/-- Embeds Rust `str::trim_right`: drop trailing whitespace characters. -/
def rtrim (s : String) : String :=
  String.mk (s.data.reverse.dropWhile Char.isWhitespace).reverse

/-- Worker for `parseU64`: left-to-right accumulation over decimal digits. -/
def digitsToNatAux : List Char → Nat → Option Nat
  | [], acc => some acc
  | c :: cs, acc =>
    if c.isDigit then digitsToNatAux cs (acc * 10 + (c.toNat - 48))
    else none

/-- Embeds Rust `u64::from_str`: an optional leading `+`, then at least one
decimal digit, value below `2 ^ 64`; anything else fails. -/
def parseU64 (s : String) : Option Nat :=
  let cs := if s.data.head? = some '+' then s.data.tail else s.data
  if cs.isEmpty then none
  else
    match digitsToNatAux cs 0 with
    | some n => if n < 2 ^ 64 then some n else none
    | none => none

/-! ### src/time.rs -/

/-- Type `MonotonicTimeMS` (src/time.rs): a millisecond-resolution monotonic
timestamp, a `u64` newtype modelled as `Nat`. -/
abbrev MonotonicTimeMS := Nat

/-- Impl `Sub for MonotonicTimeMS` (src/time.rs lines 60-66): `self.0 - other.0`
as a millisecond duration.  The `u64` subtraction is only reached by the
source under the `assert!(now >= last)` guard, where Nat and u64 subtraction
agree. -/
def MonotonicTimeMS.sub (a b : MonotonicTimeMS) : Nat := a - b

/-! ### src/wakeup_sources.rs -/

/-- One row of `/sys/kernel/debug/wakeup_sources` (src/wakeup_sources.rs). -/
structure WakeupSource where
  name : String
  active_count : Nat
  event_count : Nat
  wakeup_count : Nat
  expire_count : Nat
  active_since : MonotonicTimeMS
  total_time : MonotonicTimeMS
  max_time : MonotonicTimeMS
  last_change : MonotonicTimeMS
  prevent_suspend_time : MonotonicTimeMS
deriving DecidableEq

/-- One `fields.next().expect("Missing field: …")` step of the `field!`
macro: take the next field or fail fatally. -/
def nextField (fname : String) (fs : List String) :
    Except String (String × List String) :=
  match fs with
  | [] => Except.error ("Missing field: " ++ fname)
  | f :: rest => Except.ok (f, rest)

/-- One full `field!(fields, name)` step for a numeric field:
`next().expect(…).trim_right().parse().expect(…)`. -/
def parseNumField (fname : String) (fs : List String) :
    Except String (Nat × List String) :=
  match nextField fname fs with
  | Except.error e => Except.error e
  | Except.ok (f, rest) =>
    match parseU64 (rtrim f) with
    | some v => Except.ok (v, rest)
    | none => Except.error ("Parsing field " ++ fname ++ " failed")

/-- Body of `parse_wakeup_source` after the field iterator is formed: ten
sequential `field!` pulls in fixed column order (the `name` field parses via
`FromStr for String`, which is infallible after `trim_right`); fields left
in the iterator afterwards are never consumed. -/
def parseFields (fs : List String) : Except String WakeupSource := do
  let (f0, fs) ← nextField "name" fs
  let (active_count, fs) ← parseNumField "active_count" fs
  let (event_count, fs) ← parseNumField "event_count" fs
  let (wakeup_count, fs) ← parseNumField "wakeup_count" fs
  let (expire_count, fs) ← parseNumField "expire_count" fs
  let (active_since, fs) ← parseNumField "active_since" fs
  let (total_time, fs) ← parseNumField "total_time" fs
  let (max_time, fs) ← parseNumField "max_time" fs
  let (last_change, fs) ← parseNumField "last_change" fs
  let (prevent_suspend_time, _) ← parseNumField "prevent_suspend_time" fs
  pure { name := rtrim f0
       , active_count := active_count
       , event_count := event_count
       , wakeup_count := wakeup_count
       , expire_count := expire_count
       , active_since := active_since
       , total_time := total_time
       , max_time := max_time
       , last_change := last_change
       , prevent_suspend_time := prevent_suspend_time }

/-- Function `parse_wakeup_source` (src/wakeup_sources.rs lines 28-42):
`line.split('\t').filter(|field| field.len() > 0)` and then the ten
`field!` pulls. -/
def parse_wakeup_source (line : String) : Except String WakeupSource :=
  parseFields (nonEmptyFields line)

/-- The exact header string `most_recent_event` asserts
(src/wakeup_sources.rs lines 63-66). -/
def HEADER : String :=
  "name\t\tactive_count\tevent_count\twakeup_count\texpire_count\tactive_since\ttotal_time\tmax_time\tlast_change\tprevent_suspend_time"

/-- One fold step of Rust `Iterator::max_by_key(|source| source.last_change)`:
the running maximum is kept only when strictly greater, so equal keys prefer
the later element. -/
def maxStep (acc : Option WakeupSource) (x : WakeupSource) :
    Option WakeupSource :=
  match acc with
  | none => some x
  | some m => if m.last_change > x.last_change then some m else some x

/-- The `max_by_key(|source| source.last_change)` fold over the parsed rows. -/
def maxByLastChange (rows : List WakeupSource) : Option WakeupSource :=
  rows.foldl maxStep none

/-- Function `most_recent_event` (src/wakeup_sources.rs lines 62-77), on the list of
lines `BufRead::lines` yields (newlines already stripped): require a first
line, assert it equals `HEADER`, parse every remaining line (first parse
failure is fatal), and take the `last_change`-maximal row. -/
def most_recent_event (lines : List String) :
    Except String (Option WakeupSource) :=
  match lines with
  | [] => Except.error "No header"
  | header :: rest =>
    if header = HEADER then
      match rest.mapM parse_wakeup_source with
      | Except.ok rows => Except.ok (maxByLastChange rows)
      | Except.error e => Except.error e
    else Except.error "assertion failed: header mismatch"

/-! ### src/main.rs — PowerState (SuspendActuator) -/

/-- Access mode a file handle was opened with.  Rust `File::open` yields
`readOnly`; `OpenOptions::new().read(true).write(true)` yields `readWrite`. -/
inductive OpenMode where
  | readOnly : OpenMode
  | readWrite : OpenMode
deriving DecidableEq

/-- Rust `struct PowerState` (src/main.rs lines 23-26): the optionally retained
handle to `/sys/power/state` (recorded with its access mode) and the chosen
mode string. -/
structure PowerState where
  state_file : Option OpenMode
  state : String
deriving DecidableEq

/-- The suspend-mode selection chain of `PowerState::new`
(src/main.rs lines 34-56) over the whitespace-split supported list. -/
def selectState (req : Option String) (states : String) :
    Except String String :=
  let ks := splitWhitespaceStr states
  match req with
  | some state =>
    if ks.any (fun kstate => kstate == state) then Except.ok state
    else Except.error "Requested state not supported by the kernel"
  | none =>
    match ks.find? (fun kstate => kstate == "mem") with
    | some state => Except.ok state
    | none =>
      match ks.find? (fun kstate => kstate == "freeze") with
      | some state => Except.ok state
      | none =>
        match ks.head? with
        | some state => Except.ok state
        | none => Except.error "No suspend states supported by the kernel"

/-- Everything `PowerState::new` does that is visible to a caller. -/
structure NewOutcome where
  /-- Field recording that `new` unconditionally executes `File::open("/sys/power/state")`
  (src/main.rs line 30), before the dry-run flag is ever consulted. -/
  openedStateFile : Bool
  /-- The access mode of that `File::open` call: read-only. -/
  openMode : OpenMode
  result : Except String PowerState

/-- Method `PowerState::new` (src/main.rs lines 29-63): open `/sys/power/state`
with `File::open` (read-only), read the supported list (`states` is the
content read), select the mode, and retain the handle unless `dry_run`. -/
def PowerState.new (dry_run : Bool) (req : Option String) (states : String) :
    NewOutcome :=
  { openedStateFile := true
  , openMode := OpenMode.readOnly
  , result :=
      match selectState req states with
      | Except.error e => Except.error e
      | Except.ok state =>
        Except.ok
          { state_file := if !dry_run then some OpenMode.readOnly else none
          , state := state } }

/-- Everything one `PowerState::sleep` call does. -/
structure SleepOutcome where
  /-- The bytes `write_all` was asked to write, if a write was attempted. -/
  written : Option String
  result : Except String Bool

/-- Method `PowerState::sleep` (src/main.rs lines 65-84): with a retained handle,
write the mode string and classify the kernel's response (`EBUSY` is a benign
`false`, any other error is fatal); with no handle (dry run), write nothing
and return `true`. -/
def PowerState.sleep (ps : PowerState) (resp : WriteResult) : SleepOutcome :=
  match ps.state_file with
  | some _ =>
    { written := some ps.state
    , result :=
        match resp with
        | WriteResult.ok => Except.ok true
        | WriteResult.err e =>
          if e = EBUSY then Except.ok false
          else Except.error "state write failed" }
  | none =>
    { written := none, result := Except.ok true }

/-! ### src/main.rs — WakeupCount (WakeupCountGate) -/

/-- Rust `struct WakeupCount` (src/main.rs lines 87-90): the handle (opened
read+write) together with the exact text read from it. -/
structure WakeupCount where
  count : String
deriving DecidableEq

/-- Method `WakeupCount::get` (src/main.rs lines 94-107): open
`/sys/power/wakeup_count` read+write and read its full content (`content` is
what `read_to_string` produced; open/read failures are fatal and outside the
returned value). -/
def WakeupCount.get (content : String) : WakeupCount :=
  { count := content }

/-- Everything one `WakeupCount::put` call does. -/
structure PutOutcome where
  /-- The bytes `write_all` was asked to write. -/
  written : String
  /-- Whether the handle was released after the attempt.  `put` takes the
  receiver by value, so the `File` is dropped on every path. -/
  closed : Bool
  result : Except String Bool

/-- Method `WakeupCount::put` (src/main.rs lines 113-129): write the previously
read text back; `EINVAL` (counter changed) and `EBUSY` (kernel autosleep)
are benign `false`, any other error is fatal; the handle is dropped
regardless. -/
def WakeupCount.put (wc : WakeupCount) (resp : WriteResult) : PutOutcome :=
  { written := wc.count
  , closed := true
  , result :=
      match resp with
      | WriteResult.ok => Except.ok true
      | WriteResult.err e =>
        if e = EINVAL then Except.ok false
        else if e = EBUSY then Except.ok false
        else Except.error "wakeup_count write failed" }

/-! ### src/main.rs — apply_hysteresis -/

/-- Everything one `apply_hysteresis` call does. -/
structure HysteresisOutcome where
  /-- Milliseconds passed to `sleep`, `0` when no sleep call was made. -/
  waited : Nat
  result : Except String Unit

/-- Function `apply_hysteresis` (src/main.rs lines 132-154): with no most-recent
event, return at once; otherwise `assert!(now >= last)` (fatal when
violated), form `delta = now - last`, and sleep for
`hysteresis - delta` exactly when `delta < hysteresis`.  Durations are in
milliseconds; `hysteresis` is the configured timeout. -/
def apply_hysteresis (hysteresis : Nat) (event : Option WakeupSource)
    (now : MonotonicTimeMS) : HysteresisOutcome :=
  match event with
  | some event =>
    if event.last_change ≤ now then
      let delta := MonotonicTimeMS.sub now event.last_change
      if delta < hysteresis then
        { waited := hysteresis - delta, result := Except.ok () }
      else
        { waited := 0, result := Except.ok () }
    else
      { waited := 0, result := Except.error "assertion failed: now >= last" }
  | none => { waited := 0, result := Except.ok () }

/-! ### src/main.rs — the control loop -/

/-- Observable steps of one iteration of the `loop` in `main`
(src/main.rs lines 213-240). -/
inductive Action where
  | gateOpen : Action
  | hysteresis : Action
  | gateCommit : Action
  | suspendAttempt : Action
  | pauseOneSec : Action
  | postResumeWait : Action
deriving DecidableEq

/-- One iteration of the `main` loop, given the non-fatal outcomes of
`count.put()` (`commitOk`) and `state.sleep()` (`sleepOk`):
`WakeupCount::get`, `apply_hysteresis`, `put`; on `put` failure `continue`;
otherwise `sleep`; on `sleep` failure a one-second pause then `continue`;
otherwise the post-resume `sleep(timeout)`. -/
def cycleTrace (commitOk : Bool) (sleepOk : Bool) : List Action :=
  [Action.gateOpen, Action.hysteresis, Action.gateCommit] ++
    (if commitOk then
      [Action.suspendAttempt] ++
        (if sleepOk then [Action.postResumeWait] else [Action.pauseOneSec])
    else [])

/-- The action trace of finitely many successive loop iterations with the
given per-iteration outcomes. -/
def runTrace (outcomes : List (Bool × Bool)) : List Action :=
  (outcomes.map (fun o => cycleTrace o.1 o.2)).flatten


/-! ## Claim theorems -/

/-- C3: for every token produced by `WakeupCount::get`, `put` writes back
content byte-identical to the text read at `get` time, and (among non-fatal
outcomes) returns `true` exactly when the kernel accepts that write. -/
theorem wakeup_count_commit_roundtrip (content : String) (resp : WriteResult) :
    ((WakeupCount.get content).put resp).written = content ∧
    (((WakeupCount.get content).put resp).result = Except.ok true ↔
      resp = WriteResult.ok) := by
  refine ⟨rfl, ?_⟩
  cases resp with
  | ok => simp [WakeupCount.get, WakeupCount.put]
  | err e =>
    simp only [WakeupCount.get, WakeupCount.put]
    constructor
    · intro h
      by_cases h1 : e = EINVAL
      · simp [h1] at h
      · by_cases h2 : e = EBUSY
        · simp [h1, h2] at h
        · simp [h1, h2] at h
    · intro h
      cases h

/-- Witness for C3 at a concrete token and an accepted write. -/
theorem wakeup_count_commit_roundtrip_witness :
    ((WakeupCount.get "42").put WriteResult.ok).written = "42" ∧
    ((WakeupCount.get "42").put WriteResult.ok).result = Except.ok true :=
  ⟨(wakeup_count_commit_roundtrip "42" WriteResult.ok).1,
   ((wakeup_count_commit_roundtrip "42" WriteResult.ok).2).mpr rfl⟩

/-- C4: when the wakeup-count write fails, `EINVAL` (stale value) yields
`false`, `EBUSY` (autosleep) yields `false`, any other errno is fatal, and
the handle is released after the attempt regardless of outcome. -/
theorem wakeup_count_put_error_classification (wc : WakeupCount)
    (resp : WriteResult) :
    (wc.put resp).closed = true ∧
    (resp = WriteResult.err EINVAL → (wc.put resp).result = Except.ok false) ∧
    (resp = WriteResult.err EBUSY → (wc.put resp).result = Except.ok false) ∧
    (∀ e, resp = WriteResult.err e → e ≠ EINVAL → e ≠ EBUSY →
      isFatal (wc.put resp).result = true) := by
  refine ⟨rfl, ?_, ?_, ?_⟩
  · intro h
    subst h
    simp [WakeupCount.put]
  · intro h
    subst h
    simp [WakeupCount.put]
  · intro e h h1 h2
    subst h
    simp [WakeupCount.put, isFatal, h1, h2]

/-- Witness for C4: the stale-value errno, the busy errno and an
unrecognized errno (`EIO` = 5) at a concrete token. -/
theorem wakeup_count_put_error_classification_witness :
    ((WakeupCount.get "7").put (WriteResult.err 22)).result =
      Except.ok false ∧
    ((WakeupCount.get "7").put (WriteResult.err 16)).result =
      Except.ok false ∧
    ((WakeupCount.get "7").put (WriteResult.err 5)).closed = true ∧
    isFatal ((WakeupCount.get "7").put (WriteResult.err 5)).result = true :=
  ⟨(wakeup_count_put_error_classification (WakeupCount.get "7")
      (WriteResult.err 22)).2.1 rfl,
   (wakeup_count_put_error_classification (WakeupCount.get "7")
      (WriteResult.err 16)).2.2.1 rfl,
   (wakeup_count_put_error_classification (WakeupCount.get "7")
      (WriteResult.err 5)).1,
   (wakeup_count_put_error_classification (WakeupCount.get "7")
      (WriteResult.err 5)).2.2.2 5 rfl (by decide) (by decide)⟩

/-- C1 (code bug): in normal (non-dry-run) mode the retained
`/sys/power/state` handle was produced by `File::open`, i.e. it is open
READ-ONLY, not open for write as the specification states.  `sleep()` does
write the selected mode string through that handle, but POSIX makes
`write(2)` on a read-only descriptor fail with `EBADF`, an errno outside the
recognized benign set, so `sleep()` hits its fatal branch instead of ever
returning `true`: evaluated here at the concrete failing input
(`dry_run = false`, supported list `"mem"`, the mandated `EBADF` response). -/
theorem normal_mode_state_file_readonly_fatal :
    (PowerState.new false none "mem").result =
      Except.ok { state_file := some OpenMode.readOnly, state := "mem" } ∧
    (PowerState.new false none "mem").openMode = OpenMode.readOnly ∧
    (PowerState.sleep { state_file := some OpenMode.readOnly, state := "mem" }
        (WriteResult.err EBADF)).written = some "mem" ∧
    isFatal (PowerState.sleep
        { state_file := some OpenMode.readOnly, state := "mem" }
        (WriteResult.err EBADF)).result = true :=
  ⟨rfl, rfl, rfl, rfl⟩

/-- C2 (counterexample): the claim says that in dry-run configuration no
suspend-state pseudo-file is opened at all; but `PowerState::new` executes
`File::open("/sys/power/state")` before consulting the dry-run flag, so the
file is opened even when `dry_run = true`. -/
theorem dry_run_opens_state_file_counterexample :
    (PowerState.new true none "mem").openedStateFile = true := rfl

/-- C2 (amended): in dry-run configuration the actuator retains no file
handle, and `sleep()` unconditionally returns `true` without writing
anything (the pseudo-file is still opened once, read-only, during
construction to read the supported-mode list). -/
theorem dry_run_no_handle_sleep_true (req : Option String) (states : String)
    (ps : PowerState)
    (h : (PowerState.new true req states).result = Except.ok ps) :
    ps.state_file = none ∧
    ∀ resp, (ps.sleep resp).result = Except.ok true ∧
      (ps.sleep resp).written = none := by
  simp only [PowerState.new] at h
  cases hs : selectState req states with
  | error e => rw [hs] at h; cases h
  | ok st =>
    rw [hs] at h
    simp only [Except.ok.injEq] at h
    subst h
    refine ⟨rfl, ?_⟩
    intro resp
    exact ⟨rfl, rfl⟩

/-- Witness for C2's amended theorem at a concrete dry-run construction. -/
theorem dry_run_no_handle_sleep_true_witness :
    ({ state_file := none, state := "mem" } : PowerState).state_file = none ∧
    (PowerState.sleep { state_file := none, state := "mem" }
        WriteResult.ok).result = Except.ok true ∧
    (PowerState.sleep { state_file := none, state := "mem" }
        WriteResult.ok).written = none :=
  ⟨(dry_run_no_handle_sleep_true none "mem" _ rfl).1,
   ((dry_run_no_handle_sleep_true none "mem" _ rfl).2 WriteResult.ok).1,
   ((dry_run_no_handle_sleep_true none "mem" _ rfl).2 WriteResult.ok).2⟩

/-- C9: in every control-loop cycle, a failed gate commit ends the cycle
with no suspend attempt, a refused suspend attempt appends a one-second
pause, the following cycle always starts again at the gate-open step, and
every cycle begins with gate-open. -/
theorem control_loop_restart_behaviour (s : Bool)
    (rest : List (Bool × Bool)) :
    cycleTrace false s =
      [Action.gateOpen, Action.hysteresis, Action.gateCommit] ∧
    cycleTrace true false =
      [Action.gateOpen, Action.hysteresis, Action.gateCommit,
       Action.suspendAttempt, Action.pauseOneSec] ∧
    runTrace ((false, s) :: rest) =
      [Action.gateOpen, Action.hysteresis, Action.gateCommit] ++
        runTrace rest ∧
    runTrace ((true, false) :: rest) =
      [Action.gateOpen, Action.hysteresis, Action.gateCommit,
       Action.suspendAttempt, Action.pauseOneSec] ++ runTrace rest ∧
    ∀ c sl : Bool, (cycleTrace c sl).head? = some Action.gateOpen := by
  refine ⟨by simp [cycleTrace], rfl, ?_, ?_, ?_⟩
  · simp [runTrace, cycleTrace]
  · simp [runTrace, cycleTrace]
  · intro c sl
    cases c <;> cases sl <;> rfl


/-- C5: with a most-recent event at time `T` and current time `T + Δ`,
`apply_hysteresis` waits exactly `H - Δ` when `Δ < H`, waits nothing when
`Δ ≥ H`, waits nothing when no wakeup-source event exists, and fails loudly
(the `assert!`) when the event timestamp lies in the future of `now`. -/
theorem hysteresis_wait_exact (H T Δ : Nat) (now : MonotonicTimeMS)
    (ev : WakeupSource) :
    (ev.last_change = T → now = T + Δ → Δ < H →
      apply_hysteresis H (some ev) now =
        { waited := H - Δ, result := Except.ok () }) ∧
    (ev.last_change = T → now = T + Δ → H ≤ Δ →
      apply_hysteresis H (some ev) now =
        { waited := 0, result := Except.ok () }) ∧
    (apply_hysteresis H none now = { waited := 0, result := Except.ok () }) ∧
    (now < ev.last_change →
      isFatal (apply_hysteresis H (some ev) now).result = true) := by
  refine ⟨?_, ?_, rfl, ?_⟩
  · intro hT hnow hlt
    subst hT
    subst hnow
    simp only [apply_hysteresis, MonotonicTimeMS.sub]
    rw [if_pos (Nat.le_add_right _ _), Nat.add_sub_cancel_left, if_pos hlt]
  · intro hT hnow hge
    subst hT
    subst hnow
    simp only [apply_hysteresis, MonotonicTimeMS.sub]
    rw [if_pos (Nat.le_add_right _ _), Nat.add_sub_cancel_left,
      if_neg (Nat.not_lt.mpr hge)]
  · intro h
    simp only [apply_hysteresis]
    rw [if_neg (Nat.not_le.mpr h)]
    rfl

/-- Witness for C5: hysteresis 10ms, event at 5ms; at `now = 8` the wait is
exactly 7ms, at `now = 20` there is no wait, with no event there is no wait,
and at `now = 3` (timestamp in the future) the assertion fails. -/
theorem hysteresis_wait_exact_witness :
    apply_hysteresis 10
      (some { name := "dev", active_count := 0, event_count := 0,
              wakeup_count := 0, expire_count := 0, active_since := 0,
              total_time := 0, max_time := 0, last_change := 5,
              prevent_suspend_time := 0 }) 8 =
      { waited := 7, result := Except.ok () } ∧
    apply_hysteresis 10
      (some { name := "dev", active_count := 0, event_count := 0,
              wakeup_count := 0, expire_count := 0, active_since := 0,
              total_time := 0, max_time := 0, last_change := 5,
              prevent_suspend_time := 0 }) 20 =
      { waited := 0, result := Except.ok () } ∧
    apply_hysteresis 10 none 8 = { waited := 0, result := Except.ok () } ∧
    isFatal (apply_hysteresis 10
      (some { name := "dev", active_count := 0, event_count := 0,
              wakeup_count := 0, expire_count := 0, active_since := 0,
              total_time := 0, max_time := 0, last_change := 5,
              prevent_suspend_time := 0 }) 3).result = true :=
  ⟨(hysteresis_wait_exact 10 5 3 8 _).1 rfl rfl (by decide),
   (hysteresis_wait_exact 10 5 15 20 _).2.1 rfl rfl (by decide),
   (hysteresis_wait_exact 10 5 0 8
      { name := "dev", active_count := 0, event_count := 0,
        wakeup_count := 0, expire_count := 0, active_since := 0,
        total_time := 0, max_time := 0, last_change := 5,
        prevent_suspend_time := 0 }).2.2.1,
   (hysteresis_wait_exact 10 5 0 3 _).2.2.2 (by decide)⟩

/-- C7: suspend-mode selection is first-match-wins — a requested mode is
used when present in the whitespace-separated supported list and fatal when
absent; otherwise `"mem"` when present, otherwise `"freeze"` when present,
otherwise the first listed mode; an empty list is fatal either way. -/
theorem suspend_mode_selection (req : String) (states : String) :
    (req ∈ splitWhitespaceStr states →
      selectState (some req) states = Except.ok req) ∧
    (req ∉ splitWhitespaceStr states →
      isFatal (selectState (some req) states) = true) ∧
    ("mem" ∈ splitWhitespaceStr states →
      selectState none states = Except.ok "mem") ∧
    ("mem" ∉ splitWhitespaceStr states →
      "freeze" ∈ splitWhitespaceStr states →
      selectState none states = Except.ok "freeze") ∧
    ("mem" ∉ splitWhitespaceStr states →
      "freeze" ∉ splitWhitespaceStr states →
      ∀ f rest, splitWhitespaceStr states = f :: rest →
        selectState none states = Except.ok f) ∧
    (splitWhitespaceStr states = [] →
      isFatal (selectState (some req) states) = true ∧
      isFatal (selectState none states) = true) := by
  refine ⟨?_, ?_, ?_, ?_, ?_, ?_⟩
  · intro hmem
    have hany : ((splitWhitespaceStr states).any fun k => k == req) = true :=
      List.any_eq_true.mpr ⟨req, hmem, by simp⟩
    simp [selectState, hany]
  · intro hmem
    have hany : ((splitWhitespaceStr states).any fun k => k == req) = false := by
      rw [Bool.eq_false_iff]
      intro hc
      obtain ⟨x, hx, hbeq⟩ := List.any_eq_true.mp hc
      have hxr : x = req := by simpa using hbeq
      subst hxr
      exact hmem hx
    simp [selectState, hany, isFatal]
  · intro hmem
    cases hf : (splitWhitespaceStr states).find? (fun k => k == "mem") with
    | none =>
      exact absurd (by simp : (("mem" : String) == "mem") = true)
        (List.find?_eq_none.mp hf "mem" hmem)
    | some y =>
      have hy : y = "mem" := by simpa using List.find?_some hf
      subst hy
      simp [selectState, hf]
  · intro hmem hfreeze
    have hfm : (splitWhitespaceStr states).find? (fun k => k == "mem") =
        none := by
      rw [List.find?_eq_none]
      intro x hx hbeq
      have hxr : x = "mem" := by simpa using hbeq
      subst hxr
      exact hmem hx
    cases hf : (splitWhitespaceStr states).find? (fun k => k == "freeze") with
    | none =>
      exact absurd (by simp : (("freeze" : String) == "freeze") = true)
        (List.find?_eq_none.mp hf "freeze" hfreeze)
    | some y =>
      have hy : y = "freeze" := by simpa using List.find?_some hf
      subst hy
      simp [selectState, hfm, hf]
  · intro hmem hfreeze f rest hks
    have hfm : (splitWhitespaceStr states).find? (fun k => k == "mem") =
        none := by
      rw [List.find?_eq_none]
      intro x hx hbeq
      have hxr : x = "mem" := by simpa using hbeq
      subst hxr
      exact hmem hx
    have hff : (splitWhitespaceStr states).find? (fun k => k == "freeze") =
        none := by
      rw [List.find?_eq_none]
      intro x hx hbeq
      have hxr : x = "freeze" := by simpa using hbeq
      subst hxr
      exact hfreeze hx
    rw [hks] at hfm hff
    simp [selectState, hks, hfm, hff]
  · intro hks
    constructor
    · simp [selectState, hks, isFatal]
    · simp [selectState, hks, isFatal]

/-- Witness for C7, matching the spec's end-to-end scenario: requesting
`"freeze"` against `"mem freeze"` succeeds, requesting `"standby"` against
the same list is fatal, the default picks `"mem"`, and an empty list is
fatal. -/
theorem suspend_mode_selection_witness :
    selectState (some "freeze") "mem freeze" = Except.ok "freeze" ∧
    isFatal (selectState (some "standby") "mem freeze") = true ∧
    selectState none "mem freeze" = Except.ok "mem" ∧
    isFatal (selectState none "") = true :=
  ⟨(suspend_mode_selection "freeze" "mem freeze").1 (by decide),
   (suspend_mode_selection "standby" "mem freeze").2.1 (by decide),
   (suspend_mode_selection "standby" "mem freeze").2.2.1 (by decide),
   ((suspend_mode_selection "standby" "").2.2.2.2.2 (by decide)).2⟩


/-! ### Inversion lemmas for the field parser -/

/-- A bind over `Except` succeeds exactly when both stages succeed. -/
lemma except_bind_ok {α β : Type} {a : Except String α}
    {f : α → Except String β} {b : β} :
    (a >>= f) = Except.ok b ↔ ∃ x, a = Except.ok x ∧ f x = Except.ok b := by
  cases a <;> simp [Bind.bind, Except.bind]

/-- A map over `Except` succeeds exactly when the mapped computation does. -/
lemma except_map_ok {α β : Type} {g : α → β} {a : Except String α} {b : β} :
    (g <$> a) = Except.ok b ↔ ∃ x, a = Except.ok x ∧ g x = b := by
  cases a <;> simp [Functor.map, Except.map]

/-- Successful `nextField` means the list had that head. -/
lemma nextField_ok {fname f : String} {fs rest : List String}
    (h : nextField fname fs = Except.ok (f, rest)) : fs = f :: rest := by
  cases fs with
  | nil => simp [nextField] at h
  | cons g gs =>
    simp only [nextField, Except.ok.injEq, Prod.mk.injEq] at h
    rw [h.1, h.2]

/-- Successful `parseNumField` means the list had a head whose trimmed text
parses to the returned value. -/
lemma parseNumField_ok {fname : String} {fs rest : List String} {v : Nat}
    (h : parseNumField fname fs = Except.ok (v, rest)) :
    ∃ f, fs = f :: rest ∧ parseU64 (rtrim f) = some v := by
  cases fs with
  | nil => simp [parseNumField, nextField] at h
  | cons f gs =>
    simp only [parseNumField, nextField] at h
    cases hp : parseU64 (rtrim f) with
    | none => rw [hp] at h; cases h
    | some w =>
      rw [hp] at h
      simp only [Except.ok.injEq, Prod.mk.injEq] at h
      exact ⟨f, by rw [h.2], by rw [hp, h.1]⟩

/-- Successful `parseFields` exposes the full ten-field shape of the input
and the numeric value of every parsed field. -/
lemma parseFields_ok {fs : List String} {ws : WakeupSource}
    (h : parseFields fs = Except.ok ws) :
    ∃ f0 f1 f2 f3 f4 f5 f6 f7 f8 f9 rest,
      fs = f0 :: f1 :: f2 :: f3 :: f4 :: f5 :: f6 :: f7 :: f8 :: f9 :: rest ∧
      ws.name = rtrim f0 ∧
      parseU64 (rtrim f1) = some ws.active_count ∧
      parseU64 (rtrim f2) = some ws.event_count ∧
      parseU64 (rtrim f3) = some ws.wakeup_count ∧
      parseU64 (rtrim f4) = some ws.expire_count ∧
      parseU64 (rtrim f5) = some ws.active_since ∧
      parseU64 (rtrim f6) = some ws.total_time ∧
      parseU64 (rtrim f7) = some ws.max_time ∧
      parseU64 (rtrim f8) = some ws.last_change ∧
      parseU64 (rtrim f9) = some ws.prevent_suspend_time := by
  simp only [parseFields] at h
  obtain ⟨⟨f0, fs1⟩, h0, h⟩ := except_bind_ok.mp h
  obtain ⟨⟨v1, fs2⟩, h1, h⟩ := except_bind_ok.mp h
  obtain ⟨⟨v2, fs3⟩, h2, h⟩ := except_bind_ok.mp h
  obtain ⟨⟨v3, fs4⟩, h3, h⟩ := except_bind_ok.mp h
  obtain ⟨⟨v4, fs5⟩, h4, h⟩ := except_bind_ok.mp h
  obtain ⟨⟨v5, fs6⟩, h5, h⟩ := except_bind_ok.mp h
  obtain ⟨⟨v6, fs7⟩, h6, h⟩ := except_bind_ok.mp h
  obtain ⟨⟨v7, fs8⟩, h7, h⟩ := except_bind_ok.mp h
  obtain ⟨⟨v8, fs9⟩, h8, h⟩ := except_bind_ok.mp h
  obtain ⟨⟨v9, fs10⟩, h9, hws⟩ := except_map_ok.mp h
  obtain ⟨g1, e1, p1⟩ := parseNumField_ok h1
  obtain ⟨g2, e2, p2⟩ := parseNumField_ok h2
  obtain ⟨g3, e3, p3⟩ := parseNumField_ok h3
  obtain ⟨g4, e4, p4⟩ := parseNumField_ok h4
  obtain ⟨g5, e5, p5⟩ := parseNumField_ok h5
  obtain ⟨g6, e6, p6⟩ := parseNumField_ok h6
  obtain ⟨g7, e7, p7⟩ := parseNumField_ok h7
  obtain ⟨g8, e8, p8⟩ := parseNumField_ok h8
  obtain ⟨g9, e9, p9⟩ := parseNumField_ok h9
  simp only [] at hws
  have e0 : fs = f0 :: fs1 := nextField_ok h0
  subst e0
  subst e1
  subst e2
  subst e3
  subst e4
  subst e5
  subst e6
  subst e7
  subst e8
  subst e9
  subst hws
  exact ⟨f0, g1, g2, g3, g4, g5, g6, g7, g8, g9, fs10, rfl, rfl,
    p1, p2, p3, p4, p5, p6, p7, p8, p9⟩

/-- C8: a header line differing from the fixed ten-column title is fatal,
and in any data row a missing field (fewer than ten non-empty fields) or a
non-numeric field is a fatal parse error. -/
theorem header_and_field_errors_fatal :
    (∀ h rest, h ≠ HEADER → isFatal (most_recent_event (h :: rest)) = true) ∧
    (∀ line, (nonEmptyFields line).length < 10 →
      isFatal (parse_wakeup_source line) = true) ∧
    (∀ line i, 1 ≤ i → i ≤ 9 → i < (nonEmptyFields line).length →
      parseU64 (rtrim ((nonEmptyFields line).getD i "")) = none →
      isFatal (parse_wakeup_source line) = true) := by
  refine ⟨?_, ?_, ?_⟩
  · intro h rest hne
    simp [most_recent_event, hne, isFatal]
  · intro line hlen
    cases hp : parse_wakeup_source line with
    | error e => rfl
    | ok ws =>
      exfalso
      rw [parse_wakeup_source] at hp
      obtain ⟨f0, f1, f2, f3, f4, f5, f6, f7, f8, f9, rest, hfs, -⟩ :=
        parseFields_ok hp
      rw [hfs] at hlen
      simp at hlen
      omega
  · intro line i h1 h9 hilen hnone
    cases hp : parse_wakeup_source line with
    | error e => rfl
    | ok ws =>
      exfalso
      rw [parse_wakeup_source] at hp
      obtain ⟨f0, f1, f2, f3, f4, f5, f6, f7, f8, f9, rest, hfs, hname,
        p1, p2, p3, p4, p5, p6, p7, p8, p9⟩ := parseFields_ok hp
      rw [hfs] at hnone
      interval_cases i <;> simp_all [List.getD]

/-- Witness for C8: a wrong header, a two-field row, and a row whose third
field is non-numeric are all fatal. -/
theorem header_and_field_errors_fatal_witness :
    isFatal (most_recent_event ["bogus"]) = true ∧
    isFatal (parse_wakeup_source "a\t1") = true ∧
    isFatal (parse_wakeup_source "a\t1\tx\t1\t1\t1\t1\t1\t1\t1") = true :=
  ⟨header_and_field_errors_fatal.1 "bogus" [] (by decide),
   header_and_field_errors_fatal.2.1 "a\t1" (by decide),
   header_and_field_errors_fatal.2.2 "a\t1\tx\t1\t1\t1\t1\t1\t1\t1" 2
     (by decide) (by decide) (by decide) (by rfl)⟩

/-- The field parser never looks past the ten fields it consumes: the
leftover tail of the field list is irrelevant to the result. -/
lemma parseFields_tail_irrelevant (f0 f1 f2 f3 f4 f5 f6 f7 f8 f9 : String)
    (rest rest' : List String) :
    parseFields (f0 :: f1 :: f2 :: f3 :: f4 :: f5 :: f6 :: f7 :: f8 :: f9 ::
      rest) =
    parseFields (f0 :: f1 :: f2 :: f3 :: f4 :: f5 :: f6 :: f7 :: f8 :: f9 ::
      rest') := by
  cases h1 : parseU64 (rtrim f1) with
  | none =>
    simp [parseFields, parseNumField, nextField, bind, Except.bind,
      Functor.map, Except.map, h1]
  | some v1 =>
  cases h2 : parseU64 (rtrim f2) with
  | none => simp [parseFields, parseNumField, nextField, bind, Except.bind, Functor.map, Except.map, h1, h2]
  | some v2 =>
  cases h3 : parseU64 (rtrim f3) with
  | none => simp [parseFields, parseNumField, nextField, bind, Except.bind, Functor.map, Except.map, h1, h2, h3]
  | some v3 =>
  cases h4 : parseU64 (rtrim f4) with
  | none => simp [parseFields, parseNumField, nextField, bind, Except.bind, Functor.map, Except.map, h1, h2, h3, h4]
  | some v4 =>
  cases h5 : parseU64 (rtrim f5) with
  | none => simp [parseFields, parseNumField, nextField, bind, Except.bind, Functor.map, Except.map, h1, h2, h3, h4, h5]
  | some v5 =>
  cases h6 : parseU64 (rtrim f6) with
  | none =>
    simp [parseFields, parseNumField, nextField, bind, Except.bind, Functor.map, Except.map, h1, h2, h3, h4, h5, h6]
  | some v6 =>
  cases h7 : parseU64 (rtrim f7) with
  | none =>
    simp [parseFields, parseNumField, nextField, bind, Except.bind, Functor.map, Except.map, h1, h2, h3, h4, h5, h6, h7]
  | some v7 =>
  cases h8 : parseU64 (rtrim f8) with
  | none =>
    simp [parseFields, parseNumField, nextField, bind, Except.bind, Functor.map, Except.map, h1, h2, h3, h4, h5, h6, h7,
      h8]
  | some v8 =>
  cases h9 : parseU64 (rtrim f9) with
  | none =>
    simp [parseFields, parseNumField, nextField, bind, Except.bind, Functor.map, Except.map, h1, h2, h3, h4, h5, h6, h7,
      h8, h9]
  | some v9 =>
    simp [parseFields, parseNumField, nextField, bind, Except.bind, Functor.map, Except.map, h1, h2, h3, h4, h5, h6, h7,
      h8, h9]

/-- C10 (counterexample): the claim states that every line whose tab-split
yields more than ten non-empty fields parses successfully; this eleven-field
line fails fatally, because its second field is non-numeric. -/
theorem extra_fields_parse_counterexample :
    10 < (nonEmptyFields "a\tx\t1\t1\t1\t1\t1\t1\t1\t1\t1").length ∧
    isFatal (parse_wakeup_source "a\tx\t1\t1\t1\t1\t1\t1\t1\t1\t1") =
      true :=
  ⟨by decide, rfl⟩

/-- C10 (amended): the parse result of a row depends only on its first ten
non-empty fields — extra trailing fields are silently ignored, so a row
with more than ten fields succeeds exactly when its first ten fields are
well-formed. -/
theorem extra_fields_ignored (line : String) :
    parse_wakeup_source line = parseFields ((nonEmptyFields line).take 10) := by
  show parseFields (nonEmptyFields line) = _
  generalize nonEmptyFields line = fs
  rcases fs with _ | ⟨f0, fs⟩
  · rfl
  rcases fs with _ | ⟨f1, fs⟩
  · rfl
  rcases fs with _ | ⟨f2, fs⟩
  · rfl
  rcases fs with _ | ⟨f3, fs⟩
  · rfl
  rcases fs with _ | ⟨f4, fs⟩
  · rfl
  rcases fs with _ | ⟨f5, fs⟩
  · rfl
  rcases fs with _ | ⟨f6, fs⟩
  · rfl
  rcases fs with _ | ⟨f7, fs⟩
  · rfl
  rcases fs with _ | ⟨f8, fs⟩
  · rfl
  rcases fs with _ | ⟨f9, fs⟩
  · rfl
  exact parseFields_tail_irrelevant f0 f1 f2 f3 f4 f5 f6 f7 f8 f9 fs []


/-! ### Characterizing the max-by-key fold -/

/-- Folding `maxStep` over a snoc applies one more step. -/
lemma maxByLastChange_append (l : List WakeupSource) (x : WakeupSource) :
    maxByLastChange (l ++ [x]) = maxStep (maxByLastChange l) x := by
  simp [maxByLastChange, List.foldl_append]

/-- The `max_by_key` fold of a non-empty row list returns a row of the list
whose `last_change` is maximal and which is the last row attaining that
maximum: every row strictly after position `k` has a strictly smaller
`last_change`. -/
lemma maxByLastChange_spec (l : List WakeupSource) (hne : l ≠ []) :
    ∃ r k, maxByLastChange l = some r ∧ l[k]? = some r ∧
      (∀ s ∈ l, s.last_change ≤ r.last_change) ∧
      (∀ s ∈ l.drop (k + 1), s.last_change < r.last_change) := by
  induction l using List.reverseRecOn with
  | nil => exact absurd rfl hne
  | append_singleton l x ih =>
    rcases eq_or_ne l [] with rfl | hl
    · refine ⟨x, 0, rfl, rfl, ?_, ?_⟩
      · intro s hs
        simp only [List.nil_append, List.mem_singleton] at hs
        exact hs ▸ le_refl _
      · intro s hs
        simp at hs
    · obtain ⟨r, k, hfold, hget, hmax, hafter⟩ := ih hl
      obtain ⟨hk, -⟩ := List.getElem?_eq_some_iff.mp hget
      by_cases hc : r.last_change > x.last_change
      · refine ⟨r, k, ?_, ?_, ?_, ?_⟩
        · rw [maxByLastChange_append, hfold]
          simp [maxStep, hc]
        · rw [List.getElem?_append_left hk]
          exact hget
        · intro s hs
          rcases List.mem_append.mp hs with h | h
          · exact hmax s h
          · simp only [List.mem_singleton] at h
            exact h ▸ le_of_lt hc
        · intro s hs
          rw [List.drop_append_of_le_length hk] at hs
          rcases List.mem_append.mp hs with h | h
          · exact hafter s h
          · simp only [List.mem_singleton] at h
            exact h ▸ hc
      · have hc' : r.last_change ≤ x.last_change := Nat.not_lt.mp hc
        refine ⟨x, l.length, ?_, ?_, ?_, ?_⟩
        · rw [maxByLastChange_append, hfold]
          simp [maxStep, hc]
        · exact List.getElem?_concat_length l x
        · intro s hs
          rcases List.mem_append.mp hs with h | h
          · exact le_trans (hmax s h) hc'
          · simp only [List.mem_singleton] at h
            exact h ▸ le_refl _
        · intro s hs
          rw [List.drop_eq_nil_of_le (by simp)] at hs
          simp at hs

/-- C6: for every table whose data lines all parse, `most_recent_event`
returns a row with maximal `last_change`, ties broken toward the last such
row in table order, and returns nothing for a header-only table. -/
theorem most_recent_event_max (lines : List String)
    (rows : List WakeupSource)
    (hp : lines.mapM parse_wakeup_source = Except.ok rows) :
    (rows = [] → most_recent_event (HEADER :: lines) = Except.ok none) ∧
    (rows ≠ [] →
      ∃ r k, most_recent_event (HEADER :: lines) = Except.ok (some r) ∧
        rows[k]? = some r ∧
        (∀ s ∈ rows, s.last_change ≤ r.last_change) ∧
        (∀ s ∈ rows.drop (k + 1), s.last_change < r.last_change)) := by
  have hev : most_recent_event (HEADER :: lines) =
      Except.ok (maxByLastChange rows) := by
    change (if HEADER = HEADER then
        match lines.mapM parse_wakeup_source with
        | Except.ok rows => Except.ok (maxByLastChange rows)
        | Except.error e => Except.error e
      else Except.error "assertion failed: header mismatch") = _
    rw [if_pos rfl, hp]
  constructor
  · intro h
    subst h
    simpa [maxByLastChange] using hev
  · intro h
    obtain ⟨r, k, hfold, hget, hmax, hafter⟩ := maxByLastChange_spec rows h
    exact ⟨r, k, by rw [hev, hfold], hget, hmax, hafter⟩

/-- Witness for C6 at the header-only table. -/
theorem most_recent_event_max_witness :
    most_recent_event [HEADER] = Except.ok none :=
  (most_recent_event_max [] [] rfl).1 rfl

end Insomniad
